import Mathlib

/-
Verification of the kage confidential-vesting contract.

Shallow embedding of:
  - src/contract/encrypted-ixs/src/lib.rs        (the MPC circuit set)
  - src/contract/programs/contract/src/lib.rs    (the on-chain program)
  - src/contract/programs/contract/src/state/claim_authorization.rs

Machine integers are modeled as Nat (u64/u8 bytes) and Int (i64), with
explicit wrapping (`% 2^64`, two's-complement normalization) exactly where
the source performs unchecked casts or arithmetic: the on-chain numerator
computation's casts, and the circuits' u64 addition and multiplication,
which wrap modulo 2^64.  Fallible instructions return
`Except ShadowVestError`; an `.error` result models an aborted
transaction, i.e. no state change.
-/

namespace ShadowVest

-- ============================================================
-- Definitions: shallow embedding of the source
-- ============================================================


/-- Account addresses and 32-byte values (Pubkey, nullifiers, ciphertexts)
are opaque byte strings. -/
abbrev Pubkey := List Nat

/-- Modulus of Rust u64. -/
def U64_MOD : Nat := 2 ^ 64

/-- Normalize an integer to the two's-complement i64 range [-2^63, 2^63). -/
def wrapI64 (x : Int) : Int := (x + 2 ^ 63) % 2 ^ 64 - 2 ^ 63

/-- Rust `u64 as i64` cast (bit reinterpretation). -/
def u64AsI64 (x : Nat) : Int := wrapI64 x

/-- Rust `i64 as u64` cast (bit reinterpretation). -/
def i64AsU64 (x : Int) : Nat := (x % (2 ^ 64 : Int)).toNat

/-- Rust `u64::checked_add`. -/
def checkedAddU64 (a b : Nat) : Option Nat :=
  if a + b < U64_MOD then some (a + b) else none

/-- Precision constant for the vesting fraction (encrypted-ixs lib.rs:47
and programs/contract lib.rs:672). -/
def PRECISION : Nat := 1000000

/-- Output of the calculate_vested circuit (encrypted-ixs lib.rs:39-44). -/
structure CalculateVestedResult where
  vestedAmount : Nat
  claimableAmount : Nat
  deriving Repr, DecidableEq

/-- The calculate_vested circuit (encrypted-ixs lib.rs:96-119):
vested = total * numerator / PRECISION, where the u64 product wraps
modulo 2^64; claimable = vested - claimed if positive, else 0 (the guarded
subtraction never wraps). -/
def calculate_vested (totalAmount claimedAmount vestingNumerator : Nat) :
    CalculateVestedResult :=
  let vestedAmount := totalAmount * vestingNumerator % U64_MOD / PRECISION
  { vestedAmount := vestedAmount
    claimableAmount :=
      if vestedAmount > claimedAmount then vestedAmount - claimedAmount else 0 }

/-- Output of the process_claim circuit (encrypted-ixs lib.rs:60-65);
isValid is the circuit's u8 flag (1 = valid, 0 = invalid). -/
structure ProcessClaimResult where
  newClaimedAmount : Nat
  isValid : Nat
  deriving Repr, DecidableEq

/-- The process_claim circuit (encrypted-ixs lib.rs:122-142):
is_valid = claim_amount <= max_claimable; new claimed amount is increased
by claim_amount only when valid, with the u64 sum wrapping modulo 2^64. -/
def process_claim (claimedAmount claimAmount maxClaimable : Nat) :
    ProcessClaimResult :=
  if claimAmount ≤ maxClaimable then
    { newClaimedAmount := (claimedAmount + claimAmount) % U64_MOD, isValid := 1 }
  else
    { newClaimedAmount := claimedAmount, isValid := 0 }

/-- Organization account (state/organization.rs), fields as stored. -/
structure Organization where
  admin : Pubkey
  nameHash : List Nat
  scheduleCount : Nat
  positionCount : Nat
  compressedPositionCount : Nat
  treasury : Pubkey
  tokenMint : Pubkey
  isActive : Bool
  deriving Repr, DecidableEq

/-- VestingSchedule account (state/schedule.rs), fields as stored. -/
structure VestingSchedule where
  organization : Pubkey
  scheduleId : Nat
  cliffDuration : Nat
  totalDuration : Nat
  vestingInterval : Nat
  tokenMint : Pubkey
  isActive : Bool
  positionCount : Nat
  compressedPositionCount : Nat
  deriving Repr, DecidableEq

/-- VestingPosition account (state/position.rs); `key` is the account's
PDA address. -/
structure VestingPosition where
  key : Pubkey
  organization : Pubkey
  schedule : Pubkey
  positionId : Nat
  beneficiaryCommitment : List Nat
  encryptedTotalAmount : List Nat
  encryptedClaimedAmount : List Nat
  nonce : Nat
  startTimestamp : Int
  isActive : Bool
  isFullyClaimed : Bool
  deriving Repr, DecidableEq

/-- ClaimAuthorization account (state/claim_authorization.rs:7-26). -/
structure ClaimAuthorization where
  position : Pubkey
  nullifier : List Nat
  withdrawalDestination : Pubkey
  claimAmount : Nat
  isAuthorized : Bool
  isProcessed : Bool
  isWithdrawn : Bool
  authorizedAt : Int
  deriving Repr, DecidableEq

/-- NullifierRecord account (state/claim_authorization.rs:48-57). -/
structure NullifierRecord where
  nullifier : List Nat
  position : Pubkey
  usedAt : Int
  deriving Repr, DecidableEq

/-- Error codes of the program (errors.rs), together with the two
Anchor-level account failures the instructions rely on: `init` on an
already-existing account and loading a missing account. -/
inductive ShadowVestError where
  | AbortedComputation
  | OrganizationNotActive
  | ScheduleNotActive
  | PositionNotActive
  | PositionFullyClaimed
  | InvalidScheduleParams
  | ArithmeticOverflow
  | ClaimNotAuthorized
  | ClaimNotProcessed
  | AlreadyWithdrawn
  | InvalidEligibilitySignature
  | SignerMismatch
  | NullifierAlreadyUsed
  | InvalidWithdrawalDestination
  | InsufficientVaultBalance
  | InvalidClaimAmount
  | AccountAlreadyInitialized
  | AccountNotFound
  deriving Repr, DecidableEq

/-- The create_vesting_schedule instruction (lib.rs:149-199): parameter
validation, schedule initialization, and the overflow-checked increment of
the organization's schedule counter (lib.rs:184-187). -/
def create_vesting_schedule (org : Organization) (orgKey : Pubkey)
    (cliffDuration totalDuration vestingInterval : Nat) :
    Except ShadowVestError (Organization × VestingSchedule) :=
  if ¬ (totalDuration > 0 ∧ vestingInterval > 0) then
    .error .InvalidScheduleParams
  else if ¬ (cliffDuration ≤ totalDuration) then
    .error .InvalidScheduleParams
  else if ¬ org.isActive then
    .error .OrganizationNotActive
  else
    let schedule : VestingSchedule :=
      { organization := orgKey
        scheduleId := org.scheduleCount
        cliffDuration := cliffDuration
        totalDuration := totalDuration
        vestingInterval := vestingInterval
        tokenMint := org.tokenMint
        isActive := true
        positionCount := 0
        compressedPositionCount := 0 }
    match checkedAddU64 org.scheduleCount 1 with
    | none => .error .ArithmeticOverflow
    | some n => .ok ({ org with scheduleCount := n }, schedule)

/-- The vesting-numerator computation inlined in queue_process_claim
(lib.rs:666-688).  The source performs unchecked Rust arithmetic: the
`cliff_duration as i64` / `total_duration as i64` casts reinterpret bits,
`(current_time - cliff_end) as u64` likewise, and u64 subtraction and
multiplication wrap modulo 2^64. -/
def vestingNumerator (currentTime startTime : Int)
    (cliffDuration totalDuration vestingInterval : Nat) : Nat :=
  let cliffEnd := wrapI64 (startTime + u64AsI64 cliffDuration)
  let vestingEnd := wrapI64 (startTime + u64AsI64 totalDuration)
  if currentTime < cliffEnd then 0
  else if vestingEnd ≤ currentTime then PRECISION
  else
    let elapsed := i64AsU64 (wrapI64 (currentTime - cliffEnd))
    let intervals := elapsed / vestingInterval
    let vestedSeconds := intervals * vestingInterval % U64_MOD
    let vestingDuration := (U64_MOD + totalDuration - cliffDuration) % U64_MOD
    if vestingDuration > 0 then
      vestedSeconds * PRECISION % U64_MOD / vestingDuration
    else PRECISION

/-- The numerator-derivation pseudocode of spec.md section 4.1, stated over
unbounded integers exactly as the spec writes it. -/
def specNumerator (now start : Int) (cliff total interval : Nat) : Nat :=
  let cliffEnd := start + (cliff : Int)
  let vestEnd := start + (total : Int)
  if now < cliffEnd then 0
  else if vestEnd ≤ now then PRECISION
  else
    let elapsed := (now - cliffEnd).toNat
    let intervals := elapsed / interval
    let vestedS := intervals * interval
    let denom := total - cliff
    if denom > 0 then vestedS * PRECISION / denom else PRECISION

/-- Address of the Ed25519 signature-verification native program, an
opaque 32-byte value. -/
def ED25519_PROGRAM_ID : Pubkey := List.replicate 31 0 ++ [237]

/-- An instruction read back from the instructions sysvar. -/
structure SysvarInstruction where
  programId : Pubkey
  data : List Nat
  deriving Repr, DecidableEq

/-- Offset of the signer public key in Ed25519 instruction data, bytes 6-7
little-endian (lib.rs:572). -/
def edPubkeyOffset (d : List Nat) : Nat := d.getD 6 0 + 256 * d.getD 7 0

/-- The 32 signer-key bytes of an Ed25519 instruction (lib.rs:579). -/
def edSignerPubkey (d : List Nat) : List Nat := (d.drop (edPubkeyOffset d)).take 32

/-- Offset of the signed message, bytes 10-11 little-endian (lib.rs:588). -/
def edMessageOffset (d : List Nat) : Nat := d.getD 10 0 + 256 * d.getD 11 0

/-- Size of the signed message, bytes 12-13 little-endian (lib.rs:589). -/
def edMessageSize (d : List Nat) : Nat := d.getD 12 0 + 256 * d.getD 13 0

/-- The signed-message bytes of an Ed25519 instruction (lib.rs:596). -/
def edSignedMessage (d : List Nat) : List Nat :=
  (d.drop (edMessageOffset d)).take (edMessageSize d)

/-- Little-endian byte serialization of a u64 (Rust `to_le_bytes`). -/
def u64LeBytes (n : Nat) : List Nat := (List.range 8).map fun i => n / 256 ^ i % 256

/-- The expected 72-byte signed message position_id (8 bytes LE) ||
nullifier (32 bytes) || withdrawal_destination (32 bytes)
(lib.rs:598-602). -/
def expectedMessage (positionId : Nat) (nullifier : List Nat) (dest : Pubkey) :
    List Nat :=
  u64LeBytes positionId ++ nullifier ++ dest

/-- The authorize_claim instruction (lib.rs:522-636).  Anchor `init`
constraints on the two fresh PDAs run before the handler body, so an
existing ClaimAuthorization or NullifierRecord under the same key aborts
the transaction first.  `prevIx` is the instruction preceding this one in
the transaction (`none` when authorize_claim is the first instruction or
the sysvar load fails). -/
def authorize_claim (position : VestingPosition)
    (prevIx : Option SysvarInstruction)
    (nullifier : List Nat) (withdrawalDestination : Pubkey) (now : Int)
    (existingAuth : Option ClaimAuthorization)
    (existingNullifier : Option NullifierRecord) :
    Except ShadowVestError (ClaimAuthorization × NullifierRecord) :=
  if existingAuth.isSome ∨ existingNullifier.isSome then
    .error .AccountAlreadyInitialized
  else if ¬ position.isActive then .error .PositionNotActive
  else if position.isFullyClaimed then .error .PositionFullyClaimed
  else
    match prevIx with
    | none => .error .InvalidEligibilitySignature
    | some ix =>
      if ix.programId ≠ ED25519_PROGRAM_ID then .error .InvalidEligibilitySignature
      else if ix.data.length < 16 then .error .InvalidEligibilitySignature
      else if ix.data.getD 0 0 ≠ 1 then .error .InvalidEligibilitySignature
      else if ix.data.length < edPubkeyOffset ix.data + 32 then
        .error .InvalidEligibilitySignature
      else if edSignerPubkey ix.data ≠ position.beneficiaryCommitment then
        .error .SignerMismatch
      else if ix.data.length < edMessageOffset ix.data + edMessageSize ix.data then
        .error .InvalidEligibilitySignature
      else if edSignedMessage ix.data ≠
          expectedMessage position.positionId nullifier withdrawalDestination then
        .error .InvalidEligibilitySignature
      else
        .ok ({ position := position.key
               nullifier := nullifier
               withdrawalDestination := withdrawalDestination
               claimAmount := 0
               isAuthorized := true
               isProcessed := false
               isWithdrawn := false
               authorizedAt := now },
             { nullifier := nullifier
               position := position.key
               usedAt := now })

/-- The queue_process_claim instruction (lib.rs:645-740): state-machine
preconditions, the on-chain numerator computation, and the claim_amount
bookkeeping stored on the authorization for the callback.  The accepted
MPC submission is represented by the numerator returned alongside the
updated record. -/
def queue_process_claim (claimAuth : ClaimAuthorization)
    (position : VestingPosition) (schedule : VestingSchedule)
    (claimAmount : Nat) (now : Int) :
    Except ShadowVestError (ClaimAuthorization × Nat) :=
  if ¬ claimAuth.isAuthorized then .error .ClaimNotAuthorized
  else if claimAuth.isProcessed then .error .ClaimNotProcessed
  else if ¬ position.isActive then .error .PositionNotActive
  else
    let numerator := vestingNumerator now position.startTimestamp
      schedule.cliffDuration schedule.totalDuration schedule.vestingInterval
    .ok ({ claimAuth with claimAmount := claimAmount }, numerator)

/-- The process_claim_v2 callback (lib.rs:748-771): verifies the MPC
attestation, failing closed with AbortedComputation, then applies the new
encrypted claimed amount to the position and marks the authorization
processed. -/
def process_claim_v2_callback (verified : Bool) (outputCiphertext0 : List Nat)
    (position : VestingPosition) (claimAuth : ClaimAuthorization) :
    Except ShadowVestError (VestingPosition × ClaimAuthorization) :=
  if ¬ verified then .error .AbortedComputation
  else .ok ({ position with encryptedClaimedAmount := outputCiphertext0 },
            { claimAuth with isProcessed := true })

/-- The withdraw instruction (lib.rs:822-878).  Returns the updated
authorization, the vault balance after the transfer, and the amount
transferred to the destination; an error models the aborted transaction
with no state change. -/
def withdraw (claimAuth : ClaimAuthorization) (destination : Pubkey)
    (vaultAmount : Nat) :
    Except ShadowVestError (ClaimAuthorization × Nat × Nat) :=
  if ¬ claimAuth.isAuthorized then .error .ClaimNotAuthorized
  else if ¬ claimAuth.isProcessed then .error .ClaimNotProcessed
  else if claimAuth.isWithdrawn then .error .AlreadyWithdrawn
  else if destination ≠ claimAuth.withdrawalDestination then
    .error .InvalidWithdrawalDestination
  else if vaultAmount < claimAuth.claimAmount then
    .error .InsufficientVaultBalance
  else
    .ok ({ claimAuth with isWithdrawn := true },
         vaultAmount - claimAuth.claimAmount, claimAuth.claimAmount)

/-- Anchor-level effect of authorize_claim on the per-organization
nullifier registry: the `init` constraint on the PDA derived from
[SEED, organization, nullifier] succeeds only when no record for that
nullifier exists yet; no instruction ever mutates an existing
NullifierRecord. -/
def insertNullifierRecord (registry : List NullifierRecord) (nf : List Nat)
    (positionKey : Pubkey) (now : Int) :
    Except ShadowVestError (List NullifierRecord) :=
  if registry.any fun r => decide (r.nullifier = nf) then
    .error .AccountAlreadyInitialized
  else .ok ({ nullifier := nf, position := positionKey, usedAt := now } :: registry)

/-- Registry states reachable from the empty registry by authorize
attempts. -/
inductive RegistryReachable : List NullifierRecord → Prop where
  | init : RegistryReachable []
  | insert {reg reg' : List NullifierRecord} {nf : List Nat} {pk : Pubkey}
      {now : Int} : RegistryReachable reg →
      insertNullifierRecord reg nf pk now = .ok reg' → RegistryReachable reg'

/-- A callback account registered with the MPC queue (pubkey plus
writability), as in the CallbackAccount values built by the
instructions. -/
structure CallbackAccount where
  pubkey : Pubkey
  isWritable : Bool
  deriving Repr, DecidableEq

/-- The VestedAmountCalculated event (lib.rs:499-505). -/
structure VestedAmountCalculatedEvent where
  position : Pubkey
  positionId : Nat
  encryptedVestedAmount : List Nat
  encryptedClaimableAmount : List Nat
  nonce : Nat
  deriving Repr, DecidableEq

/-- The calculate_vested_amount instruction (lib.rs:435-486): guards, then
queues the calculate_vested computation registering the position as a
read-only callback account (is_writable = false, lib.rs:460-463). -/
def calculate_vested_amount (position : VestingPosition) :
    Except ShadowVestError (List CallbackAccount) :=
  if ¬ position.isActive then .error .PositionNotActive
  else if position.isFullyClaimed then .error .PositionFullyClaimed
  else .ok [{ pubkey := position.key, isWritable := false }]

/-- The calculate_vested callback (lib.rs:489-508): verifies the MPC
attestation, failing closed, writes no account field, and surfaces the
output ciphertexts only through the VestedAmountCalculated event. -/
def calculate_vested_callback (verified : Bool) (out0 out1 : List Nat)
    (nonce : Nat) (position : VestingPosition) :
    Except ShadowVestError (VestingPosition × VestedAmountCalculatedEvent) :=
  if ¬ verified then .error .AbortedComputation
  else .ok (position,
    { position := position.key
      positionId := position.positionId
      encryptedVestedAmount := out0
      encryptedClaimableAmount := out1
      nonce := nonce })

/-- Sample beneficiary (stealth) key. -/
def sampleBeneficiary : List Nat := List.replicate 32 7

/-- Sample nullifier. -/
def sampleNullifier : List Nat := List.replicate 32 9

/-- Sample withdrawal destination. -/
def sampleDestination : Pubkey := List.replicate 32 3

/-- A live sample vesting position with position_id 5. -/
def samplePosition : VestingPosition :=
  { key := List.replicate 32 1
    organization := List.replicate 32 2
    schedule := List.replicate 32 4
    positionId := 5
    beneficiaryCommitment := sampleBeneficiary
    encryptedTotalAmount := List.replicate 32 0
    encryptedClaimedAmount := List.replicate 32 0
    nonce := 0
    startTimestamp := 0
    isActive := true
    isFullyClaimed := false }

/-- A well-formed Ed25519 verification instruction for samplePosition:
one signature, signer key at offset 16, the 72-byte message
position_id (5) || sampleNullifier || sampleDestination at offset 48. -/
def sampleEdInstruction : SysvarInstruction :=
  { programId := ED25519_PROGRAM_ID
    data := [1, 0, 0, 0, 0, 0, 16, 0, 0, 0, 48, 0, 72, 0, 0, 0] ++
      sampleBeneficiary ++
      ([5, 0, 0, 0, 0, 0, 0, 0] ++ sampleNullifier ++ sampleDestination) }

/-- The records authorize_claim creates from the sample evidence. -/
def sampleAuthorizeResult : ClaimAuthorization × NullifierRecord :=
  ({ position := List.replicate 32 1
     nullifier := sampleNullifier
     withdrawalDestination := sampleDestination
     claimAmount := 0
     isAuthorized := true
     isProcessed := false
     isWithdrawn := false
     authorizedAt := 0 },
   { nullifier := sampleNullifier
     position := List.replicate 32 1
     usedAt := 0 })

/-- A sample organization. -/
def sampleOrganization : Organization :=
  { admin := List.replicate 32 5
    nameHash := List.replicate 32 0
    scheduleCount := 0
    positionCount := 0
    compressedPositionCount := 0
    treasury := List.replicate 32 8
    tokenMint := List.replicate 32 6
    isActive := true }

/-- The sample organization with its schedule counter at u64::MAX. -/
def maxCountOrganization : Organization :=
  { admin := List.replicate 32 5
    nameHash := List.replicate 32 0
    scheduleCount := 2 ^ 64 - 1
    positionCount := 0
    compressedPositionCount := 0
    treasury := List.replicate 32 8
    tokenMint := List.replicate 32 6
    isActive := true }

/-- A valid but extreme schedule: cliff and total duration of 2^63
seconds, interval one second. -/
def overflowSchedule : VestingSchedule :=
  { organization := List.replicate 32 2
    scheduleId := 0
    cliffDuration := 2 ^ 63
    totalDuration := 2 ^ 63
    vestingInterval := 1
    tokenMint := List.replicate 32 6
    isActive := true
    positionCount := 0
    compressedPositionCount := 0 }

/-- The sample authorization after queue_process_claim stored a
claim_amount of 10. -/
def queuedSampleAuth : ClaimAuthorization :=
  { position := List.replicate 32 1
    nullifier := sampleNullifier
    withdrawalDestination := sampleDestination
    claimAmount := 10
    isAuthorized := true
    isProcessed := false
    isWithdrawn := false
    authorizedAt := 0 }

/-- The spec scenario schedule: cliff 1000 s, total 10000 s,
interval 500 s. -/
def sampleSchedule : VestingSchedule :=
  { organization := List.replicate 32 2
    scheduleId := 0
    cliffDuration := 1000
    totalDuration := 10000
    vestingInterval := 500
    tokenMint := List.replicate 32 6
    isActive := true
    positionCount := 0
    compressedPositionCount := 0 }

/-- The callback-account list calculate_vested_amount registers for the
sample position. -/
def sampleVestedAccounts : List CallbackAccount :=
  [{ pubkey := samplePosition.key, isWritable := false }]

/-- One instruction touching the claim-authorization record of a fixed
(position, nullifier) key. -/
inductive ClaimOp where
  | authorize (position : VestingPosition) (prevIx : Option SysvarInstruction)
      (nullifier : List Nat) (dest : Pubkey) (now : Int)
      (existingNullifier : Option NullifierRecord)
  | queueProcess (position : VestingPosition) (schedule : VestingSchedule)
      (claimAmount : Nat) (now : Int)
  | processCallback (verified : Bool) (outputCiphertext0 : List Nat)
      (position : VestingPosition)
  | withdrawal (dest : Pubkey) (vault : Nat)

/-- Effect of one instruction on the claim-authorization record for a
fixed (position, nullifier) key; `none` is the absent record, and an
Anchor load of a missing account fails the transaction. -/
def claimStep (s : Option ClaimAuthorization) (op : ClaimOp) :
    Except ShadowVestError (Option ClaimAuthorization) :=
  match op with
  | .authorize pos pix nf dest now en =>
      (authorize_claim pos pix nf dest now s en).map fun r => some r.1
  | .queueProcess pos sched amt now =>
      match s with
      | none => .error .AccountNotFound
      | some a => (queue_process_claim a pos sched amt now).map fun r => some r.1
  | .processCallback v out pos =>
      match s with
      | none => .error .AccountNotFound
      | some a => (process_claim_v2_callback v out pos a).map fun r => some r.2
  | .withdrawal dest vault =>
      match s with
      | none => .error .AccountNotFound
      | some a => (withdraw a dest vault).map fun r => some r.1

/-- Claim-record states reachable from the absent state. -/
inductive ClaimReachable : Option ClaimAuthorization → Prop where
  | init : ClaimReachable none
  | step {s s' : Option ClaimAuthorization} {op : ClaimOp} :
      ClaimReachable s → claimStep s op = .ok s' → ClaimReachable s'

/-- Flag order between claim states: an absent record precedes everything,
a present record only precedes records keeping every set flag set. -/
def flagsLe : Option ClaimAuthorization → Option ClaimAuthorization → Prop
  | none, _ => True
  | some _, none => False
  | some a, some b =>
      (a.isAuthorized = true → b.isAuthorized = true) ∧
      (a.isProcessed = true → b.isProcessed = true) ∧
      (a.isWithdrawn = true → b.isWithdrawn = true)

-- ============================================================
-- Theorems
-- ============================================================

/-- C6 (amended): for every circuit input, process_claim returns
is_valid = 1 exactly when claim_amount <= max_claimable; when valid the new
claimed amount is the u64-wrapped sum (claimed + claim_amount) % 2^64,
which equals claimed + claim_amount whenever that sum does not overflow
u64; when invalid the claimed amount is returned unchanged.  The scenario
instances (claimed=100000, max=150000, claim 150000 vs 150001) are
included. -/
theorem process_claim_validity :
    (∀ c a m : Nat,
      ((process_claim c a m).isValid = 1 ↔ a ≤ m) ∧
      (a ≤ m → (process_claim c a m).newClaimedAmount = (c + a) % 2 ^ 64) ∧
      (a ≤ m → c + a < 2 ^ 64 →
        (process_claim c a m).newClaimedAmount = c + a) ∧
      (¬ a ≤ m → (process_claim c a m).newClaimedAmount = c)) ∧
    process_claim 100000 150000 150000 =
      { newClaimedAmount := 250000, isValid := 1 } ∧
    process_claim 100000 150001 150000 =
      { newClaimedAmount := 100000, isValid := 0 } := by
  refine ⟨fun c a m => ?_, by decide, by decide⟩
  unfold process_claim U64_MOD
  split
  · refine ⟨by simp_all, fun _ => rfl, fun _ h2 => ?_, by simp_all⟩
    show (c + a) % 2 ^ 64 = c + a
    omega
  · simp_all

/-- Witness for process_claim_validity at concrete non-overflowing
inputs. -/
theorem process_claim_validity_witness :
    (process_claim 7 3 5).isValid = 1 ∧
    (process_claim 7 3 5).newClaimedAmount = 10 := by
  have h := process_claim_validity.1 7 3 5
  exact ⟨h.1.mpr (by decide), h.2.2.1 (by decide) (by decide)⟩

/-- C6 counterexample: at the valid u64 input claimed = 2^64 - 1,
claim_amount = 1 <= max_claimable = 1, the circuit's u64 addition wraps:
the claim is accepted (is_valid = 1) but new_claimed_amount is 0, not
claimed + claim_amount. -/
theorem process_claim_wraps_u64 :
    (process_claim (2 ^ 64 - 1) 1 1).isValid = 1 ∧
    (process_claim (2 ^ 64 - 1) 1 1).newClaimedAmount = 0 ∧
    (process_claim (2 ^ 64 - 1) 1 1).newClaimedAmount ≠ (2 ^ 64 - 1) + 1 := by
  refine ⟨by decide, by decide, by decide⟩

/-- C7 (amended): for every circuit input, calculate_vested returns
vested = (total * numerator) % 2^64 / 1000000 — the u64 product wraps —
which equals total * numerator / 1000000 whenever the product does not
overflow u64; claimable = max(vested - claimed, 0) holds for the returned
vested amount unconditionally, and coincides with the claim's formula
under the same no-overflow bound.  The scenario instance total=1000000,
numerator=250000, claimed=100000 is included. -/
theorem calculate_vested_formula :
    (∀ t c n : Nat,
      (calculate_vested t c n).vestedAmount = t * n % 2 ^ 64 / 1000000 ∧
      (t * n < 2 ^ 64 →
        (calculate_vested t c n).vestedAmount = t * n / 1000000) ∧
      ((calculate_vested t c n).claimableAmount : Int) =
        max (((calculate_vested t c n).vestedAmount : Int) - (c : Int)) 0 ∧
      (t * n < 2 ^ 64 →
        ((calculate_vested t c n).claimableAmount : Int) =
          max ((t * n / 1000000 : Nat) - (c : Int)) 0)) ∧
    (calculate_vested 1000000 100000 250000).vestedAmount = 250000 ∧
    (calculate_vested 1000000 100000 250000).claimableAmount = 150000 := by
  have hclaim : ∀ t c n : Nat,
      ((calculate_vested t c n).claimableAmount : Int) =
        max (((calculate_vested t c n).vestedAmount : Int) - (c : Int)) 0 := by
    intro t c n
    have hv : (calculate_vested t c n).vestedAmount =
        t * n % U64_MOD / PRECISION := rfl
    rw [hv]
    show ((if t * n % U64_MOD / PRECISION > c then
      t * n % U64_MOD / PRECISION - c else 0 : Nat) : Int) = _
    split_ifs with h
    · rw [max_eq_left (by omega)]
      omega
    · rw [max_eq_right (by omega)]
      simp
  have hvest : ∀ t c n : Nat, t * n < 2 ^ 64 →
      (calculate_vested t c n).vestedAmount = t * n / 1000000 := by
    intro t c n h
    show t * n % U64_MOD / PRECISION = _
    unfold U64_MOD PRECISION
    rw [Nat.mod_eq_of_lt h]
  refine ⟨fun t c n => ⟨rfl, hvest t c n, hclaim t c n, fun h => ?_⟩,
    by decide, by decide⟩
  rw [hclaim t c n, hvest t c n h]

/-- Witness for calculate_vested_formula: the spec scenario's product does
not overflow, so the claimed formulas hold there. -/
theorem calculate_vested_formula_witness :
    (calculate_vested 1000000 100000 250000).vestedAmount =
      1000000 * 250000 / 1000000 ∧
    ((calculate_vested 1000000 100000 250000).claimableAmount : Int) =
      max ((1000000 * 250000 / 1000000 : Nat) - (100000 : Int)) 0 :=
  ⟨(calculate_vested_formula.1 1000000 100000 250000).2.1 (by decide),
   (calculate_vested_formula.1 1000000 100000 250000).2.2.2 (by decide)⟩

/-- C7 counterexample: at the valid u64 input total = numerator = 2^32 the
circuit's u64 product wraps to 0, so vested_amount is 0 while the claim's
unbounded formula total * numerator / 1000000 gives 18446744073709. -/
theorem calculate_vested_wraps_u64 :
    (calculate_vested (2 ^ 32) 0 (2 ^ 32)).vestedAmount = 0 ∧
    (2 ^ 32 * 2 ^ 32 / 1000000 : Nat) = 18446744073709 ∧
    (calculate_vested (2 ^ 32) 0 (2 ^ 32)).vestedAmount ≠
      2 ^ 32 * 2 ^ 32 / 1000000 := by
  refine ⟨by decide, by decide, by decide⟩

theorem wrapI64_eq_self {x : Int} (h1 : -(2 ^ 63) ≤ x) (h2 : x < 2 ^ 63) :
    wrapI64 x = x := by
  unfold wrapI64
  omega

/-- C1 (amended): for every position and schedule whose parameters keep the
unchecked arithmetic inside the machine ranges — cliff ≤ total < 2^63,
start + total within i64, (total - cliff) · PRECISION ≤ 2^64 — the
on-chain numerator equals the spec pseudocode, and the spec scenario
(cliff=1000, total=10000, interval=500) gives 0 at t=1000, 55555 at
t=1500 and 1000000 at t=10000. -/
theorem vesting_numerator_matches_spec :
    (∀ (now start : Int) (cliff total interval : Nat),
      cliff ≤ total → total < 2 ^ 63 →
      -(2 ^ 63) ≤ start → start + (total : Int) < 2 ^ 63 →
      -(2 ^ 63) ≤ now → now < 2 ^ 63 →
      (total - cliff) * PRECISION ≤ 2 ^ 64 →
      0 < interval →
      vestingNumerator now start cliff total interval =
        specNumerator now start cliff total interval) ∧
    vestingNumerator 1000 0 1000 10000 500 = 0 ∧
    vestingNumerator 1500 0 1000 10000 500 = 55555 ∧
    vestingNumerator 10000 0 1000 10000 500 = 1000000 := by
  refine ⟨fun now start cliff total interval hct ht hs hst hn1 hn2 hmul hi => ?_,
    by decide, by decide, by decide⟩
  have hc : wrapI64 (cliff : Int) = (cliff : Int) :=
    wrapI64_eq_self (by omega) (by omega)
  have htc : wrapI64 (total : Int) = (total : Int) :=
    wrapI64_eq_self (by omega) (by omega)
  have hcliffEnd : wrapI64 (start + u64AsI64 cliff) = start + (cliff : Int) := by
    unfold u64AsI64
    rw [hc]
    exact wrapI64_eq_self (by omega) (by omega)
  have hvestEnd : wrapI64 (start + u64AsI64 total) = start + (total : Int) := by
    unfold u64AsI64
    rw [htc]
    exact wrapI64_eq_self (by omega) (by omega)
  have hvd : (U64_MOD + total - cliff) % U64_MOD = total - cliff := by
    unfold U64_MOD
    omega
  simp only [vestingNumerator, specNumerator, hcliffEnd, hvestEnd, hvd]
  split_ifs with hb1 hb2
  · rfl
  · rfl
  · -- linear-vesting branch: all wrapping is the identity here
    have helapsed : i64AsU64 (wrapI64 (now - (start + (cliff : Int)))) =
        (now - (start + (cliff : Int))).toNat := by
      rw [wrapI64_eq_self (by omega) (by omega)]
      unfold i64AsU64
      omega
    rw [helapsed]
    have heN : (now - (start + (cliff : Int))).toNat < total - cliff := by omega
    have hvs : (now - (start + (cliff : Int))).toNat / interval * interval ≤
        (now - (start + (cliff : Int))).toNat := Nat.div_mul_le_self _ _
    have hvs64 : (now - (start + (cliff : Int))).toNat / interval * interval %
        U64_MOD = (now - (start + (cliff : Int))).toNat / interval * interval := by
      unfold U64_MOD
      omega
    rw [hvs64]
    have hmul1 : (now - (start + (cliff : Int))).toNat / interval * interval *
        PRECISION ≤ (total - cliff - 1) * PRECISION :=
      Nat.mul_le_mul_right PRECISION (by omega)
    have hmul2 : (total - cliff - 1) * PRECISION =
        (total - cliff) * PRECISION - 1 * PRECISION := Nat.sub_mul _ _ _
    have hmulE : (now - (start + (cliff : Int))).toNat / interval * interval *
        PRECISION % U64_MOD =
        (now - (start + (cliff : Int))).toNat / interval * interval * PRECISION := by
      unfold U64_MOD PRECISION at *
      omega
    rw [hmulE]
  · rfl

/-- Witness for vesting_numerator_matches_spec, instantiating the
universally quantified part at the spec scenario's t = 1500 point. -/
theorem vesting_numerator_matches_spec_witness :
    vestingNumerator 1500 0 1000 10000 500 = specNumerator 1500 0 1000 10000 500 :=
  vesting_numerator_matches_spec.1 1500 0 1000 10000 500 (by decide) (by decide)
    (by decide) (by decide) (by decide) (by decide) (by decide) (by decide)

/-- C1 counterexample: the schedule cliff_duration = total_duration = 2^63,
vesting_interval = 1 passes create_vesting_schedule validation, yet at
t = 0 with start = 0 — before its 2^63-second cliff — the on-chain
computation returns PRECISION (fully vested) where the spec pseudocode
returns 0: the unchecked `as i64` cast wraps 2^63 to -2^63. -/
theorem vesting_numerator_spec_divergence :
    vestingNumerator 0 0 (2 ^ 63) (2 ^ 63) 1 ≠
      specNumerator 0 0 (2 ^ 63) (2 ^ 63) 1 ∧
    vestingNumerator 0 0 (2 ^ 63) (2 ^ 63) 1 = PRECISION ∧
    specNumerator 0 0 (2 ^ 63) (2 ^ 63) 1 = 0 := by
  refine ⟨?_, by decide, by decide⟩
  decide

/-- C3: withdraw checks its preconditions in order, each with its distinct
error (ClaimNotAuthorized, ClaimNotProcessed, AlreadyWithdrawn,
InvalidWithdrawalDestination, InsufficientVaultBalance); when all hold it
transfers exactly claim_amount from the vault, sets is_withdrawn and
changes nothing else; and a repeated withdraw on the updated record fails
with AlreadyWithdrawn.  Every failure is an error result, i.e. no state
change. -/
theorem withdraw_order_and_effects :
    ∀ (a : ClaimAuthorization) (dest : Pubkey) (vault : Nat),
      (a.isAuthorized = false →
        withdraw a dest vault = .error .ClaimNotAuthorized) ∧
      (a.isAuthorized = true → a.isProcessed = false →
        withdraw a dest vault = .error .ClaimNotProcessed) ∧
      (a.isAuthorized = true → a.isProcessed = true → a.isWithdrawn = true →
        withdraw a dest vault = .error .AlreadyWithdrawn) ∧
      (a.isAuthorized = true → a.isProcessed = true → a.isWithdrawn = false →
        dest ≠ a.withdrawalDestination →
        withdraw a dest vault = .error .InvalidWithdrawalDestination) ∧
      (a.isAuthorized = true → a.isProcessed = true → a.isWithdrawn = false →
        dest = a.withdrawalDestination → vault < a.claimAmount →
        withdraw a dest vault = .error .InsufficientVaultBalance) ∧
      (a.isAuthorized = true → a.isProcessed = true → a.isWithdrawn = false →
        dest = a.withdrawalDestination → a.claimAmount ≤ vault →
        withdraw a dest vault =
          .ok ({ a with isWithdrawn := true }, vault - a.claimAmount,
               a.claimAmount)) ∧
      (∀ r, withdraw a dest vault = .ok r →
        ∀ dest2 vault2, withdraw r.1 dest2 vault2 = .error .AlreadyWithdrawn) := by
  intro a dest vault
  refine ⟨?_, ?_, ?_, ?_, ?_, ?_, ?_⟩
  · intro h1
    simp [withdraw, h1]
  · intro h1 h2
    simp [withdraw, h1, h2]
  · intro h1 h2 h3
    simp [withdraw, h1, h2, h3]
  · intro h1 h2 h3 h4
    simp [withdraw, h1, h2, h3, h4]
  · intro h1 h2 h3 h4 h5
    simp [withdraw, h1, h2, h3, h4, h5]
  · intro h1 h2 h3 h4 h5
    simp only [withdraw, h1, h2, h3, h4]
    rw [if_neg (by simp), if_neg (by simp), if_neg (by simp), if_neg (by simp),
      if_neg (by omega)]
  · intro r hok dest2 vault2
    unfold withdraw at hok
    split_ifs at hok with g1 g2 g3 g4 g5
    simp_all [withdraw]
    rw [← hok]
    simp [g1, g2]

/-- Witness for withdraw_order_and_effects: a processed, not-yet-withdrawn
record with a matching destination and sufficient vault balance withdraws
exactly its claim_amount. -/
theorem withdraw_order_and_effects_witness :
    withdraw
      { position := List.replicate 32 1
        nullifier := List.replicate 32 9
        withdrawalDestination := List.replicate 32 3
        claimAmount := 40
        isAuthorized := true
        isProcessed := true
        isWithdrawn := false
        authorizedAt := 0 }
      (List.replicate 32 3) 100 =
    .ok ({ position := List.replicate 32 1
           nullifier := List.replicate 32 9
           withdrawalDestination := List.replicate 32 3
           claimAmount := 40
           isAuthorized := true
           isProcessed := true
           isWithdrawn := true
           authorizedAt := 0 }, 60, 40) :=
  (withdraw_order_and_effects _ _ _).2.2.2.2.2.1 rfl rfl rfl rfl (by decide)

set_option maxHeartbeats 2000000 in
/-- Successful authorize_claim runs are fully characterized: both fresh
accounts were absent, the position was live, the Ed25519 evidence was
present with the right signer and exact message, and the created records
have exactly the initial field values. -/
theorem authorize_claim_ok_cases {pos : VestingPosition}
    {pix : Option SysvarInstruction} {nf : List Nat} {dest : Pubkey}
    {now : Int} {ea : Option ClaimAuthorization} {en : Option NullifierRecord}
    {r : ClaimAuthorization × NullifierRecord}
    (hok : authorize_claim pos pix nf dest now ea en = .ok r) :
    ea = none ∧ en = none ∧ pos.isActive = true ∧ pos.isFullyClaimed = false ∧
    (∃ ix, pix = some ix ∧
      ix.programId = ED25519_PROGRAM_ID ∧
      edSignerPubkey ix.data = pos.beneficiaryCommitment ∧
      edSignedMessage ix.data = expectedMessage pos.positionId nf dest) ∧
    r = ({ position := pos.key, nullifier := nf, withdrawalDestination := dest,
           claimAmount := 0, isAuthorized := true, isProcessed := false,
           isWithdrawn := false, authorizedAt := now },
         { nullifier := nf, position := pos.key, usedAt := now }) := by
  cases pix with
  | none =>
    simp only [authorize_claim] at hok
    split_ifs at hok
  | some ix =>
    simp only [authorize_claim] at hok
    split_ifs at hok with g1 g2 g3 g4 g5 g6 g7 g8 g9 g10
    have ⟨h1, h2⟩ := not_or.mp g1
    injection hok with hr
    refine ⟨?_, ?_, g2, ?_, ⟨ix, rfl, not_not.mp g4, not_not.mp g8,
      not_not.mp g10⟩, hr.symm⟩
    · cases ea with
      | none => rfl
      | some a => exact absurd rfl h1
    · cases en with
      | none => rfl
      | some n => exact absurd rfl h2
    · cases hfc : pos.isFullyClaimed with
      | false => rfl
      | true => exact absurd hfc g3

set_option maxHeartbeats 2000000 in
/-- C5: authorize_claim succeeds only when the Ed25519 evidence's signer
key equals the position's stored beneficiary commitment and the signed
message equals the exact 72-byte layout position_id (8 LE) || nullifier
(32) || destination (32); whenever the signed message differs in any byte
or the signer key differs, the instruction is rejected with
InvalidEligibilitySignature or SignerMismatch, and an error result creates
no record. -/
theorem eligibility_signature_exact :
    ∀ (pos : VestingPosition) (ix : SysvarInstruction) (nf : List Nat)
      (dest : Pubkey) (now : Int) (ea : Option ClaimAuthorization)
      (en : Option NullifierRecord),
      (∀ r, authorize_claim pos (some ix) nf dest now ea en = .ok r →
        edSignerPubkey ix.data = pos.beneficiaryCommitment ∧
        edSignedMessage ix.data = expectedMessage pos.positionId nf dest) ∧
      (nf.length = 32 → dest.length = 32 →
        (expectedMessage pos.positionId nf dest).length = 72) ∧
      (ea = none → en = none → pos.isActive = true → pos.isFullyClaimed = false →
        edSignedMessage ix.data ≠ expectedMessage pos.positionId nf dest ∨
          edSignerPubkey ix.data ≠ pos.beneficiaryCommitment →
        authorize_claim pos (some ix) nf dest now ea en =
            .error .InvalidEligibilitySignature ∨
          authorize_claim pos (some ix) nf dest now ea en =
            .error .SignerMismatch) := by
  intro pos ix nf dest now ea en
  refine ⟨?_, ?_, ?_⟩
  · intro r hok
    obtain ⟨-, -, -, -, ⟨ix2, hix, -, hsig, hmsg⟩, -⟩ :=
      authorize_claim_ok_cases hok
    injection hix with hix2
    subst hix2
    exact ⟨hsig, hmsg⟩
  · intro h1 h2
    simp [expectedMessage, u64LeBytes, h1, h2]
  · intro hea hen hact hfc hmis
    subst hea hen
    simp only [authorize_claim]
    split_ifs with g1 g2 g3 g4 g5 g6 g7 g8 g9
    · exact absurd g1 (by simp)
    · simp [hfc] at g2
    · exact Or.inl rfl
    · exact Or.inl rfl
    · exact Or.inl rfl
    · exact Or.inl rfl
    · exact Or.inr rfl
    · exact Or.inl rfl
    · exact Or.inl rfl
    · rcases hmis with h | h
      · exact absurd (not_not.mp g9) h
      · exact absurd (not_not.mp g7) h

/-- Witness for eligibility_signature_exact: the sample evidence passes
and its windows equal the beneficiary key and the exact expected
message. -/
theorem eligibility_signature_exact_witness :
    edSignerPubkey sampleEdInstruction.data =
      samplePosition.beneficiaryCommitment ∧
    edSignedMessage sampleEdInstruction.data =
      expectedMessage samplePosition.positionId sampleNullifier
        sampleDestination :=
  (eligibility_signature_exact samplePosition sampleEdInstruction
    sampleNullifier sampleDestination 0 none none).1 sampleAuthorizeResult rfl

/-- C4: at most one authorize_claim succeeds per nullifier under an
organization: a second insert attempt on the same key fails as a whole
(an error creates neither record) and leaves the registry — in particular
the first record's fields — unchanged; a successful insert only prepends
the new record; and every reachable registry has pairwise-distinct
nullifier keys, i.e. exactly one record per consumed nullifier. -/
theorem nullifier_insert_exclusive :
    (∀ reg nf pk now pk2 now2 reg',
      insertNullifierRecord reg nf pk now = .ok reg' →
        insertNullifierRecord reg' nf pk2 now2 =
          .error .AccountAlreadyInitialized) ∧
    (∀ reg nf pk now r, r ∈ reg → r.nullifier = nf →
      insertNullifierRecord reg nf pk now =
        .error .AccountAlreadyInitialized) ∧
    (∀ reg nf pk now reg', insertNullifierRecord reg nf pk now = .ok reg' →
      reg' = { nullifier := nf, position := pk, usedAt := now } :: reg) ∧
    (∀ reg, RegistryReachable reg → (reg.map fun r => r.nullifier).Nodup) := by
  have hins : ∀ (reg : List NullifierRecord) nf pk now reg',
      insertNullifierRecord reg nf pk now = .ok reg' →
        reg' = { nullifier := nf, position := pk, usedAt := now } :: reg ∧
        ∀ r ∈ reg, r.nullifier ≠ nf := by
    intro reg nf pk now reg' hok
    unfold insertNullifierRecord at hok
    split_ifs at hok with h
    injection hok with h2
    simp only [List.any_eq_true, decide_eq_true_eq, not_exists, not_and] at h
    exact ⟨h2.symm, h⟩
  refine ⟨?_, ?_, ?_, ?_⟩
  · intro reg nf pk now pk2 now2 reg' hok
    obtain ⟨he, _⟩ := hins reg nf pk now reg' hok
    subst he
    unfold insertNullifierRecord
    rw [if_pos (by simp)]
  · intro reg nf pk now r hr hnf
    unfold insertNullifierRecord
    rw [if_pos (List.any_eq_true.mpr ⟨r, hr, by simp [hnf]⟩)]
  · intro reg nf pk now reg' hok
    exact (hins reg nf pk now reg' hok).1
  · intro reg hreach
    induction hreach with
    | init => simp
    | insert hstep hok ih =>
      rename_i reg0 reg1 nf pk now
      obtain ⟨he, habs⟩ := hins reg0 nf pk now reg1 hok
      subst he
      simp only [List.map_cons, List.nodup_cons]
      refine ⟨?_, ih⟩
      simp only [List.mem_map, not_exists, not_and]
      intro r hr
      exact habs r hr

/-- Witness for nullifier_insert_exclusive: inserting sampleNullifier into
the registry that already holds it fails with the account-in-use error. -/
theorem nullifier_insert_exclusive_witness :
    insertNullifierRecord
      [{ nullifier := sampleNullifier, position := List.replicate 32 1,
         usedAt := 0 }]
      sampleNullifier (List.replicate 32 1) 5 =
      .error .AccountAlreadyInitialized :=
  nullifier_insert_exclusive.1 [] sampleNullifier (List.replicate 32 1) 0
    (List.replicate 32 1) 5 _ rfl

/-- C8: when the process_claim circuit reports is_valid = 0 the claimed
amount is returned unchanged; the process_claim_v2 callback sets
is_processed = true on every verified output, valid or not; and a
processed authorization can never be queued again — a retry needs a fresh
nullifier and hence a fresh authorization. -/
theorem denied_claim_resolved :
    (∀ c a m, (process_claim c a m).isValid = 0 →
      (process_claim c a m).newClaimedAmount = c) ∧
    (∀ v out pos a r, process_claim_v2_callback v out pos a = .ok r →
      r.2.isProcessed = true) ∧
    (∀ a pos sched amt now,
      (a : ClaimAuthorization).isAuthorized = true → a.isProcessed = true →
      queue_process_claim a pos sched amt now = .error .ClaimNotProcessed) := by
  refine ⟨?_, ?_, ?_⟩
  · intro c a m h
    unfold process_claim at h ⊢
    split_ifs at h ⊢
    all_goals simp_all
  · intro v out pos a r hok
    unfold process_claim_v2_callback at hok
    split_ifs at hok with g
    injection hok with h2
    rw [← h2]
  · intro a pos sched amt now h1 h2
    simp [queue_process_claim, h1, h2]

/-- Witness for denied_claim_resolved: the spec's invalid-claim scenario
leaves claimed at 100000, and the processed sample record cannot be
re-queued. -/
theorem denied_claim_resolved_witness :
    (process_claim 100000 150001 150000).newClaimedAmount = 100000 ∧
    queue_process_claim
      { position := List.replicate 32 1
        nullifier := sampleNullifier
        withdrawalDestination := sampleDestination
        claimAmount := 10
        isAuthorized := true
        isProcessed := true
        isWithdrawn := false
        authorizedAt := 0 }
      samplePosition sampleSchedule 10 0 = .error .ClaimNotProcessed :=
  ⟨denied_claim_resolved.1 100000 150001 150000 (by decide),
   denied_claim_resolved.2.2 _ samplePosition sampleSchedule 10 0 rfl rfl⟩

/-- C9: the counter increments do use checked arithmetic and fail closed
(first conjunct: a schedule count at u64::MAX makes create_vesting_schedule
fail with ArithmeticOverflow), but the plaintext vesting-numerator
arithmetic in queue_process_claim does not: on the accepted schedule
cliff = total = 2^63 s, interval = 1 s, queue_process_claim at t = 0 —
before the cliff — succeeds with the wrapped numerator PRECISION instead
of failing with an error, because `cliff_duration as i64` silently wraps
2^63 to -2^63. -/
theorem numerator_arithmetic_unchecked :
    create_vesting_schedule maxCountOrganization
      (List.replicate 32 2) 1000 10000 500 = .error .ArithmeticOverflow ∧
    (create_vesting_schedule sampleOrganization (List.replicate 32 2)
      (2 ^ 63) (2 ^ 63) 1 |>.isOk) = true ∧
    queue_process_claim sampleAuthorizeResult.1 samplePosition
      overflowSchedule 10 0 =
      .ok (queuedSampleAuth, PRECISION) := by
  refine ⟨rfl, rfl, rfl⟩

/-- C10: the calculate_vested round trip never writes ledger state:
calculate_vested_amount registers the position read-only
(is_writable = false), and the verified callback returns the position
unchanged in every field, surfacing the encrypted vested and claimable
outputs only through the VestedAmountCalculated event. -/
theorem calculate_vested_roundtrip_readonly :
    (∀ pos accounts, calculate_vested_amount pos = .ok accounts →
      accounts = [{ pubkey := pos.key, isWritable := false }]) ∧
    (∀ v out0 out1 nonce pos r,
      calculate_vested_callback v out0 out1 nonce pos = .ok r →
        r.1 = pos ∧
        r.2.encryptedVestedAmount = out0 ∧
        r.2.encryptedClaimableAmount = out1 ∧
        r.2.position = pos.key ∧ r.2.positionId = pos.positionId) := by
  refine ⟨?_, ?_⟩
  · intro pos accounts hok
    unfold calculate_vested_amount at hok
    split_ifs at hok with g1 g2
    injection hok with h2
    exact h2.symm
  · intro v out0 out1 nonce pos r hok
    unfold calculate_vested_callback at hok
    split_ifs at hok with g
    injection hok with h2
    rw [← h2]
    exact ⟨rfl, rfl, rfl, rfl, rfl⟩

/-- Witness for calculate_vested_roundtrip_readonly: the sample position
is registered read-only. -/
theorem calculate_vested_roundtrip_readonly_witness :
    sampleVestedAccounts = [{ pubkey := samplePosition.key, isWritable := false }] :=
  calculate_vested_roundtrip_readonly.1 samplePosition sampleVestedAccounts rfl

/-- Successful queue_process_claim runs require an authorized, unprocessed
record and a live position, store the claim amount, and return the
on-chain numerator. -/
theorem queue_process_claim_ok_cases {a : ClaimAuthorization}
    {pos : VestingPosition} {sched : VestingSchedule} {amt : Nat} {now : Int}
    {r : ClaimAuthorization × Nat}
    (hok : queue_process_claim a pos sched amt now = .ok r) :
    a.isAuthorized = true ∧ a.isProcessed = false ∧ pos.isActive = true ∧
    r.1 = { a with claimAmount := amt } ∧
    r.2 = vestingNumerator now pos.startTimestamp sched.cliffDuration
      sched.totalDuration sched.vestingInterval := by
  unfold queue_process_claim at hok
  split_ifs at hok with g1 g2 g3
  injection hok with h
  have hproc : a.isProcessed = false := by simpa using g2
  exact ⟨g1, hproc, g3, by rw [← h], by rw [← h]⟩

/-- Successful process_claim_v2 callbacks require a verified attestation
and produce exactly the updated position ciphertext and the processed
flag. -/
theorem process_claim_v2_callback_ok_cases {v : Bool} {out : List Nat}
    {pos : VestingPosition} {a : ClaimAuthorization}
    {r : VestingPosition × ClaimAuthorization}
    (hok : process_claim_v2_callback v out pos a = .ok r) :
    v = true ∧ r.1 = { pos with encryptedClaimedAmount := out } ∧
    r.2 = { a with isProcessed := true } := by
  unfold process_claim_v2_callback at hok
  split_ifs at hok with g
  injection hok with h
  exact ⟨g, by rw [← h], by rw [← h]⟩

/-- Successful withdraw runs require the (authorized, processed, not
withdrawn) state, a matching destination and a sufficient vault, and
produce exactly the withdrawn flag and the claim_amount transfer. -/
theorem withdraw_ok_cases {a : ClaimAuthorization} {dest : Pubkey}
    {vault : Nat} {r : ClaimAuthorization × Nat × Nat}
    (hok : withdraw a dest vault = .ok r) :
    a.isAuthorized = true ∧ a.isProcessed = true ∧ a.isWithdrawn = false ∧
    dest = a.withdrawalDestination ∧ a.claimAmount ≤ vault ∧
    r.1 = { a with isWithdrawn := true } ∧
    r.2.1 = vault - a.claimAmount ∧ r.2.2 = a.claimAmount := by
  unfold withdraw at hok
  split_ifs at hok with g1 g2 g3 g4 g5
  injection hok with h
  have hwd : a.isWithdrawn = false := by simpa using g3
  exact ⟨g1, g2, hwd, not_not.mp g4, by omega, by rw [← h], by rw [← h],
    by rw [← h]⟩

/-- C2: the three booleans form the monotonic machine
absent → authorized → processed → withdrawn: authorize_claim creates the
record only when absent, with (true, false, false); a second authorize on
the same key fails; queue_process_claim requires authorized and not
processed and changes no flag; the process_claim_v2 callback sets
is_processed and every reachable record is authorized; withdraw fires only
from (true, true, false); every reachable record satisfies the stage chain;
and no successful step ever resets a flag. -/
theorem claim_lifecycle_monotone :
    (∀ pos pix nf dest now en r,
      authorize_claim pos pix nf dest now none en = .ok r →
        r.1.isAuthorized = true ∧ r.1.isProcessed = false ∧
        r.1.isWithdrawn = false) ∧
    (∀ pos pix nf dest now a en r,
      authorize_claim pos pix nf dest now (some a) en ≠ .ok r) ∧
    (∀ a pos sched amt now r, queue_process_claim a pos sched amt now = .ok r →
      a.isAuthorized = true ∧ a.isProcessed = false ∧
      r.1.isAuthorized = a.isAuthorized ∧ r.1.isProcessed = a.isProcessed ∧
      r.1.isWithdrawn = a.isWithdrawn) ∧
    (∀ v out pos a r, process_claim_v2_callback v out pos a = .ok r →
      r.2.isProcessed = true ∧ r.2.isAuthorized = a.isAuthorized ∧
      r.2.isWithdrawn = a.isWithdrawn) ∧
    (∀ a dest vault r, withdraw a dest vault = .ok r →
      a.isAuthorized = true ∧ a.isProcessed = true ∧ a.isWithdrawn = false) ∧
    (∀ s, ClaimReachable s → ∀ a, s = some a →
      a.isAuthorized = true ∧ (a.isWithdrawn = true → a.isProcessed = true)) ∧
    (∀ s op s', claimStep s op = .ok s' → flagsLe s s') := by
  have hmono : ∀ s op s', claimStep s op = .ok s' → flagsLe s s' := by
    intro s op s' h
    cases op with
    | authorize pos pix nf dest now en =>
      simp only [claimStep] at h
      cases hx : authorize_claim pos pix nf dest now s en with
      | error e => rw [hx] at h; exact Except.noConfusion h
      | ok r =>
        obtain ⟨hea, -⟩ := authorize_claim_ok_cases hx
        subst hea
        trivial
    | queueProcess pos sched amt now =>
      cases s with
      | none => exact Except.noConfusion h
      | some a =>
        simp only [claimStep] at h
        cases hx : queue_process_claim a pos sched amt now with
        | error e => rw [hx] at h; exact Except.noConfusion h
        | ok r =>
          rw [hx] at h
          simp only [Except.map] at h
          injection h with h2
          obtain ⟨-, -, -, h1, -⟩ := queue_process_claim_ok_cases hx
          rw [← h2, h1]
          exact ⟨fun x => x, fun x => x, fun x => x⟩
    | processCallback v out pos =>
      cases s with
      | none => exact Except.noConfusion h
      | some a =>
        simp only [claimStep] at h
        cases hx : process_claim_v2_callback v out pos a with
        | error e => rw [hx] at h; exact Except.noConfusion h
        | ok r =>
          rw [hx] at h
          simp only [Except.map] at h
          injection h with h2
          obtain ⟨-, -, h1⟩ := process_claim_v2_callback_ok_cases hx
          rw [← h2, h1]
          exact ⟨fun x => x, fun _ => rfl, fun x => x⟩
    | withdrawal dest vault =>
      cases s with
      | none => exact Except.noConfusion h
      | some a =>
        simp only [claimStep] at h
        cases hx : withdraw a dest vault with
        | error e => rw [hx] at h; exact Except.noConfusion h
        | ok r =>
          rw [hx] at h
          simp only [Except.map] at h
          injection h with h2
          obtain ⟨h1, h4, -, -, -, h5, -, -⟩ := withdraw_ok_cases hx
          rw [← h2, h5]
          exact ⟨fun _ => h1, fun _ => h4, fun _ => rfl⟩
  have hinv : ∀ s, ClaimReachable s → ∀ a, s = some a →
      a.isAuthorized = true ∧ (a.isWithdrawn = true → a.isProcessed = true) := by
    intro s hreach
    induction hreach with
    | init => intro a ha; exact Option.noConfusion ha
    | step hr hstep ih =>
      rename_i s0 s1 op
      intro a ha
      subst ha
      cases op with
      | authorize pos pix nf dest now en =>
        simp only [claimStep] at hstep
        cases hx : authorize_claim pos pix nf dest now s0 en with
        | error e => rw [hx] at hstep; exact Except.noConfusion hstep
        | ok r =>
          rw [hx] at hstep
          simp only [Except.map] at hstep
          injection hstep with h2
          obtain ⟨-, -, -, -, -, hrv⟩ := authorize_claim_ok_cases hx
          injection h2 with h3
          rw [← h3, hrv]
          exact ⟨rfl, fun hw => by simp at hw⟩
      | queueProcess pos sched amt now =>
        cases s0 with
        | none => exact Except.noConfusion hstep
        | some a0 =>
          simp only [claimStep] at hstep
          cases hx : queue_process_claim a0 pos sched amt now with
          | error e => rw [hx] at hstep; exact Except.noConfusion hstep
          | ok r =>
            rw [hx] at hstep
            simp only [Except.map] at hstep
            injection hstep with h2
            injection h2 with h3
            obtain ⟨-, -, -, h1, -⟩ := queue_process_claim_ok_cases hx
            obtain ⟨hia, hwp⟩ := ih a0 rfl
            rw [← h3, h1]
            exact ⟨hia, hwp⟩
      | processCallback v out pos =>
        cases s0 with
        | none => exact Except.noConfusion hstep
        | some a0 =>
          simp only [claimStep] at hstep
          cases hx : process_claim_v2_callback v out pos a0 with
          | error e => rw [hx] at hstep; exact Except.noConfusion hstep
          | ok r =>
            rw [hx] at hstep
            simp only [Except.map] at hstep
            injection hstep with h2
            injection h2 with h3
            obtain ⟨-, -, h1⟩ := process_claim_v2_callback_ok_cases hx
            obtain ⟨hia, -⟩ := ih a0 rfl
            rw [← h3, h1]
            exact ⟨hia, fun _ => rfl⟩
      | withdrawal dest vault =>
        cases s0 with
        | none => exact Except.noConfusion hstep
        | some a0 =>
          simp only [claimStep] at hstep
          cases hx : withdraw a0 dest vault with
          | error e => rw [hx] at hstep; exact Except.noConfusion hstep
          | ok r =>
            rw [hx] at hstep
            simp only [Except.map] at hstep
            injection hstep with h2
            injection h2 with h3
            obtain ⟨h1, h4, -, -, -, h5, -, -⟩ := withdraw_ok_cases hx
            rw [← h3, h5]
            exact ⟨h1, fun _ => h4⟩
  refine ⟨?_, ?_, ?_, ?_, ?_, hinv, hmono⟩
  · intro pos pix nf dest now en r hok
    obtain ⟨-, -, -, -, -, hrv⟩ := authorize_claim_ok_cases hok
    rw [hrv]
    exact ⟨rfl, rfl, rfl⟩
  · intro pos pix nf dest now a en r hok
    obtain ⟨hea, -⟩ := authorize_claim_ok_cases hok
    exact Option.noConfusion hea
  · intro a pos sched amt now r hok
    obtain ⟨h1, h2, -, h3, -⟩ := queue_process_claim_ok_cases hok
    rw [h3]
    exact ⟨h1, h2, rfl, rfl, rfl⟩
  · intro v out pos a r hok
    obtain ⟨-, -, h1⟩ := process_claim_v2_callback_ok_cases hok
    rw [h1]
    exact ⟨rfl, rfl, rfl⟩
  · intro a dest vault r hok
    obtain ⟨h1, h2, h3, -⟩ := withdraw_ok_cases hok
    exact ⟨h1, h2, h3⟩

/-- Witness for claim_lifecycle_monotone: the sample authorize run creates
the record in the (authorized, unprocessed, not withdrawn) state. -/
theorem claim_lifecycle_monotone_witness :
    sampleAuthorizeResult.1.isAuthorized = true ∧
    sampleAuthorizeResult.1.isProcessed = false ∧
    sampleAuthorizeResult.1.isWithdrawn = false :=
  claim_lifecycle_monotone.1 samplePosition (some sampleEdInstruction)
    sampleNullifier sampleDestination 0 none sampleAuthorizeResult rfl


end ShadowVest
